import Mathlib

/-!
Shallow embedding of the reddit-analyzer agent execution core
(src/internal/agent/agent/agent.go, src/internal/agent/agent/prompt.go and
the llm package types it uses).

Conventions of the embedding:
- Go maps (map[string]T) are modelled as association lists
  (List (String × T)); Go guarantees key uniqueness, and lookup is
  modelled by first match.  encoding/json marshals Go maps with keys in
  sorted (byte-lexicographic) order, which is modelled by sorting the
  key set before serialising.
- Go errors are modelled as a kind (the sentinel reached by errors.Is,
  i.e. the error wrapped with the percent-w verb) together with the
  formatted message text.  fmt.Errorf with a percent-w verb on a
  sentinel and percent-s on the cause yields that sentinel kind with
  the cause flattened into the message.
- The injected model client (llm.LLM.Call), the schema validator
  (gojsonschema.Validate against the precompiled schemaLoader) and the
  JSON decoder (json.Unmarshal into T) are external capabilities and
  are carried as function fields of the Agent record.
- Nontermination of the Run loop is handled by fuel: the loop function
  returns none when fuel runs out; every claim is about runs that
  return some outcome.
- text/template is modelled for the fragment the repository uses:
  actions of the form open-brace open-brace dot identifier close-brace
  close-brace.  Executing a variable action whose key is absent from
  the argument map produces the literal text <no value> (the documented
  default missingkey behaviour of text/template for maps); malformed or
  unclosed actions are parse errors.
-/

/-- Left brace character, written via its code point. -/
def lbrace : Char := Char.ofNat 123

/-- Right brace character, written via its code point. -/
def rbrace : Char := Char.ofNat 125

/-- Byte-wise lexicographic comparison of character lists, mirroring
Go byte-slice comparison used by encoding/json when sorting map keys. -/
def leChars : List Char → List Char → Bool
  | [], _ => true
  | _ :: _, [] => false
  | a :: as, b :: bs =>
    if a.toNat < b.toNat then true
    else if b.toNat < a.toNat then false
    else leChars as bs

/-- Lexicographic string comparison used for JSON map key ordering. -/
def strLe (s t : String) : Bool := leChars s.data t.data

/-- The comparison as a relation, for use with List.insertionSort. -/
def strLeR : String → String → Prop := fun a b => strLe a b = true

instance : DecidableRel strLeR := fun _ _ => inferInstanceAs (Decidable (_ = true))

/-- First-match lookup in an association list, modelling Go map indexing
with the comma-ok form. -/
def lookupA {α : Type} : List (String × α) → String → Option α
  | [], _ => none
  | (k, v) :: rest, key => if k = key then some v else lookupA rest key

/-- The sorted, duplicate-free key list of an association list: the key
order in which encoding/json serialises a Go map. -/
def jsonKeys {α : Type} (l : List (String × α)) : List String :=
  List.insertionSort strLeR (l.map Prod.fst).dedup

/-- JSON string quoting (escaping elided: all keys and values in scope
are plain text). -/
def quoteStr (s : String) : String := "\"" ++ s ++ "\""

/-- Serialisation of one key of a map whose values print via f. -/
def jsonField {α : Type} (l : List (String × α)) (f : Option α → String)
    (k : String) : String :=
  quoteStr k ++ ":" ++ f (lookupA l k)

/-- Serialisation of a Go map with values printed by f, keys sorted as
encoding/json does. -/
def marshalMap {α : Type} (f : Option α → String) (l : List (String × α)) : String :=
  "\x7b" ++ String.intercalate "," ((jsonKeys l).map (jsonField l f)) ++ "\x7d"

/-- Serialisation of a map[string]int with natural-number values (the
usage counters). -/
def marshalNatMap (l : List (String × Nat)) : String :=
  marshalMap (fun v => toString (v.getD 0)) l

/-- Serialisation of a map[string]int with possibly negative values (the
configured limits). -/
def marshalIntMap (l : List (String × Int)) : String :=
  marshalMap (fun v => toString (v.getD 0)) l

/-- A parsed template piece: literal text or a variable action. -/
inductive Piece
  | lit (s : List Char)
  | var (s : String)
deriving DecidableEq

/-- Identifier characters accepted inside a variable action. -/
def isIdentChar (c : Char) : Bool := c.isAlphanum || c = '_'

/-- Parse the text between the action delimiters: optional spaces, a
dot, then a nonempty identifier.  Anything else is a parse error, as in
text/template for malformed actions (the repository only ever uses
simple dot-identifier actions). -/
def parseAction (cs : List Char) : Except String String :=
  let t := ((cs.dropWhile (· = ' ')).reverse.dropWhile (· = ' ')).reverse
  match t with
  | '.' :: rest =>
    if !rest.isEmpty && rest.all isIdentChar then .ok (String.mk rest)
    else .error ("bad action: " ++ String.mk t)
  | _ => .error ("unexpected action: " ++ String.mk t)

/-- Scanner state for the one-pass template tokenizer.  Buffers are kept
reversed; pend records a single seen delimiter character awaiting its
partner. -/
structure PState where
  pieces : List Piece
  buf : List Char
  inAct : Bool
  pend : Bool
  err : Option String

/-- Initial scanner state. -/
def initPState : PState := ⟨[], [], false, false, none⟩

/-- One scanner step over the next template character. -/
def stepTmpl (st : PState) (c : Char) : PState :=
  match st.err with
  | some _ => st
  | none =>
    if st.inAct then
      if st.pend then
        if c = rbrace then
          match parseAction st.buf.reverse with
          | .error e => { st with err := some e }
          | .ok v => ⟨Piece.var v :: st.pieces, [], false, false, none⟩
        else ⟨st.pieces, c :: rbrace :: st.buf, true, false, none⟩
      else
        if c = rbrace then { st with pend := true }
        else { st with buf := c :: st.buf }
    else
      if st.pend then
        if c = lbrace then ⟨Piece.lit st.buf.reverse :: st.pieces, [], true, false, none⟩
        else ⟨st.pieces, c :: lbrace :: st.buf, false, false, none⟩
      else
        if c = lbrace then { st with pend := true }
        else { st with buf := c :: st.buf }

/-- Finish scanning: an unterminated action is a parse error, pending or
buffered literal text is flushed. -/
def finishTmpl (st : PState) : Except String (List Piece) :=
  match st.err with
  | some e => .error e
  | none =>
    if st.inAct then .error "unclosed action"
    else
      let buf := if st.pend then lbrace :: st.buf else st.buf
      let ps := if buf.isEmpty then st.pieces else Piece.lit buf.reverse :: st.pieces
      .ok ps.reverse

/-- Parse a template string into pieces, modelling template.Parse for
the dot-identifier fragment. -/
def parseTemplate (s : String) : Except String (List Piece) :=
  finishTmpl (s.data.foldl stepTmpl initPState)

/-- Execute one piece against the argument map.  A variable whose key is
missing from the map renders the placeholder text, exactly as
text/template does for maps under the default missingkey option. -/
def execPiece (args : List (String × String)) : Piece → String
  | .lit cs => String.mk cs
  | .var v =>
    match lookupA args v with
    | some s => s
    | none => "<no value>"

/-- Execute a parsed template against the argument map, modelling
template.Execute. -/
def execTemplate (ps : List Piece) (args : List (String × String)) : String :=
  ps.foldl (fun acc p => acc ++ execPiece args p) ""

/-- Message role, from llm.LLMMessageType. -/
inductive LLMMessageType
  | system
  | user
  | assistant
deriving DecidableEq

/-- A tool invocation request attached to an assistant message, from
llm.LLMToolCall.  Argument values are opaque here; no claim inspects
them. -/
structure LLMToolCall where
  id : String
  toolName : String
  args : List (String × String)
deriving DecidableEq

/-- A tool invocation result, from llm.LLMToolResult (BaseLLMToolResult
carries the correlating id; the payload is the tool-specific rest). -/
structure LLMToolResult where
  id : String
  payload : String
deriving DecidableEq

/-- One conversation message, from llm.LLMMessage.  The Go ToolCalls
field is a slice that is nil when absent; an empty list models nil (a
non-nil empty slice behaves identically in Run). -/
structure LLMMessage where
  type : LLMMessageType
  content : String
  toolCalls : List LLMToolCall
  toolResults : List LLMToolResult
  End : Bool
deriving DecidableEq

instance : Inhabited LLMMessage := ⟨⟨.system, "", [], [], false⟩⟩

/-- Constructor mirror of llm.NewLLMMessage. -/
def NewLLMMessage (msgType : LLMMessageType) (content : String) : LLMMessage :=
  ⟨msgType, content, [], [], false⟩

/-- A registered tool, from llm.LLMTool.  The parameters schema is
carried as its JSON text; Call models the invocation function, which
returns a result or an error. -/
structure LLMTool where
  name : String
  description : String
  parametersSchema : String
  call : String → List (String × String) → Except String LLMToolResult

/-- Serialisation of one tool as encoding/json produces it (the Call
field carries the json dash tag and is skipped). -/
def toolJson (t : LLMTool) : String :=
  "\x7b\"name\":" ++ quoteStr t.name ++ ",\"parameters_schema\":" ++
    t.parametersSchema ++ ",\"description\":" ++ quoteStr t.description ++ "\x7d"

/-- Serialisation of the tool registry map. -/
def marshalToolMap (l : List (String × LLMTool)) : String :=
  marshalMap (fun v => match v with | some t => toolJson t | none => "null") l

/-- Result of gojsonschema.Validate: the Valid flag and the formatted
text of Errors. -/
structure ValidationResult where
  valid : Bool
  errorsText : String
deriving DecidableEq

/-- Error kinds: the sentinel errors declared at the top of agent.go.
The unwrapped kind stands for an error value that wraps none of the
sentinels (errors.Is is false for every sentinel). -/
inductive ErrKind
  | limitReached
  | toolError
  | llmCall
  | finish
  | toolNotFound
  | invalidResultSchema
  | cannotCreateSchema
  | emptySystemPrompt
  | unwrapped
deriving DecidableEq

/-- The message text of each sentinel error, from the errors.New calls
in agent.go. -/
def errText : ErrKind → String
  | .limitReached => "tool limit reached"
  | .toolError => "tool error occurred"
  | .llmCall => "LLM call error occurred"
  | .finish => "LLM finished execution"
  | .toolNotFound => "tool not found"
  | .invalidResultSchema => "invalid result schema"
  | .cannotCreateSchema => "cannot create schema from output type"
  | .emptySystemPrompt => "system prompt cannot be empty"
  | .unwrapped => ""

/-- A Go error value as the agent core observes it: the sentinel kind
reachable by errors.Is plus the formatted message. -/
structure GoError where
  kind : ErrKind
  msg : String
deriving DecidableEq

/-- Model of fmt.Errorf with percent-w on a sentinel and percent-s on
the cause: the result is of that sentinel kind, the cause flattened
into text. -/
def wrap (k : ErrKind) (s : String) : GoError :=
  ⟨k, errText k ++ ": " ++ s⟩

/-- Usage counters: map from tool name to invocation count (map[string]int
in Run, only ever incremented, hence Nat values). -/
def Usage := List (String × Nat)

instance : DecidableEq Usage := inferInstanceAs (DecidableEq (List (String × Nat)))

/-- The usage map increment statement usage[name]++: a missing key reads
as zero and is inserted with one. -/
def incrUsage : Usage → String → Usage
  | [], k => [(k, 1)]
  | (k', n) :: rest, k =>
    if k' = k then (k', n + 1) :: rest else (k', n) :: incrUsage rest k

/-- Read a counter with Go zero-value semantics for a missing key. -/
def getUsage (u : Usage) (k : String) : Nat := (lookupA u k).getD 0

/-- The prompt template value, from prompt.go. -/
structure Prompt where
  Template : String
deriving DecidableEq

/-- Constructor mirror of NewPrompt. -/
def NewPrompt (t : String) : Prompt := ⟨t⟩

/-- Prompt.Render from prompt.go: parse the template, then execute it
against the argument map.  A parse failure is wrapped (with percent-w,
preserving no sentinel since template errors wrap none) into the
failed-to-parse message.  For the modelled fragment with string-valued
arguments, execution itself cannot fail. -/
def Prompt.Render (p : Prompt) (args : List (String × String)) : Except GoError String :=
  match parseTemplate p.Template with
  | .error e => .error ⟨.unwrapped, "failed to parse prompt template: " ++ e⟩
  | .ok ps => .ok (execTemplate ps args)

/-- The agent configuration, from the Agent struct in agent.go,
specialised to an output type T.  outputSchemaJson models the marshalled
jsonschema.Reflect of T (a pure value per agent); validate models
gojsonschema.Validate against the precompiled schemaLoader; unmarshal
models json.Unmarshal into T; llm models the injected model client. -/
structure Agent (T : Type) where
  name : String
  tools : List (String × LLMTool)
  limits : List (String × Int)
  behavior : String
  systemPrompt : Prompt
  outputSchemaJson : String
  validate : String → Except String ValidationResult
  unmarshal : String → Except String T
  llm : List LLMMessage → Except String LLMMessage

/-- Conversation state, from the AgentState struct. -/
structure AgentState where
  Messages : List LLMMessage
deriving DecidableEq

/-- AgentState.AddMessage: append one message. -/
def AgentState.AddMessage (st : AgentState) (m : LLMMessage) : AgentState :=
  ⟨st.Messages ++ [m]⟩

/-- The in-place overwrite state.Messages[0].Content = newSystemPrompt
from the prompt-refresh step of Run.  The empty case cannot arise in a
run (the initial state has two messages). -/
def setSystemContent (st : AgentState) (sp : String) : AgentState :=
  match st.Messages with
  | [] => st
  | m :: rest => ⟨{ m with content := sp } :: rest⟩

/-- The run result, from AgentResult. -/
structure AgentResult (T : Type) where
  data : T
  messages : List LLMMessage
deriving DecidableEq

/-- createSystemPrompt from agent.go: marshal the tool registry, the
usage counters, the limits and the output schema (marshalling of these
maps cannot fail in Go), then render the template with the five
substitutions. -/
def createSystemPrompt {T : Type} (a : Agent T) (usage : Usage) : Except GoError String :=
  a.systemPrompt.Render
    [("tools", marshalToolMap a.tools),
     ("tools_usage", marshalNatMap usage),
     ("calling_limits", marshalIntMap a.limits),
     ("output_schema", a.outputSchemaJson),
     ("behavior", a.behavior)]

/-- createInitState from agent.go: render the initial system prompt over
zero usage, fail on an empty rendering, then build the two-message
initial state (the input is carried already serialised; json.Marshal of
the caller input is not modelled, no claim depends on it). -/
def createInitState {T : Type} (a : Agent T) (input : String) : Except GoError AgentState :=
  match createSystemPrompt a [] with
  | .error e => .error ⟨.unwrapped, "failed to create system prompt: " ++ e.msg⟩
  | .ok sp =>
    if sp = "" then .error ⟨.emptySystemPrompt, errText .emptySystemPrompt⟩
    else .ok ⟨[NewLLMMessage .system sp, NewLLMMessage .user input]⟩

/-- The loop body of callTools: resolve each call in order, abort on an
unknown name or a tool error, increment the counter after each success,
collect results in call order (the accumulator is reversed at the
end). -/
def callToolsGo (tools : List (String × LLMTool)) :
    List LLMToolCall → Usage → List LLMToolResult →
    Usage × Except GoError (List LLMToolResult)
  | [], usage, acc => (usage, .ok acc.reverse)
  | c :: rest, usage, acc =>
    match lookupA tools c.toolName with
    | none => (usage, .error (wrap .toolNotFound c.toolName))
    | some tool =>
      match tool.call c.id c.args with
      | .error e => (usage, .error (wrap .toolError e))
      | .ok res => callToolsGo tools rest (incrUsage usage c.toolName) (res :: acc)

/-- callTools from agent.go.  The usage map is mutated in place in Go,
so the updated map is returned alongside the outcome. -/
def callTools {T : Type} (a : Agent T) (m : LLMMessage) (usage : Usage) :
    Usage × Except GoError (List LLMToolResult) :=
  callToolsGo a.tools m.toolCalls usage []

/-- createResult from agent.go: validate the last message content
against the schema, reporting a validator error or an invalid result as
the invalid-result-schema kind; then decode, returning a decode error
bare (the unmarshal error is returned as-is, wrapped in no sentinel).
Go indexes Messages[len-1]; the empty case (unreachable from Run) reads
the Inhabited default. -/
def createResult {T : Type} (a : Agent T) (state : AgentState) :
    Except GoError (AgentResult T) :=
  let content := (state.Messages.getLastD default).content
  match a.validate content with
  | .error e => .error (wrap .invalidResultSchema e)
  | .ok vr =>
    if !vr.valid then .error (wrap .invalidResultSchema vr.errorsText)
    else
      match a.unmarshal content with
      | .error e => .error ⟨.unwrapped, e⟩
      | .ok d => .ok ⟨d, state.Messages⟩

/-- isLimitReached from agent.go: count the limited tools whose usage
entry exists and has reached its limit, and compare with the number of
limited tools (the Go code sizes a set keyed by tool name; limits keys
are unique since limits is a map). -/
def isLimitReached {T : Type} (a : Agent T) (usage : Usage) : Bool :=
  (a.limits.countP fun p =>
    match lookupA usage p.1 with
    | some u => decide ((u : Int) ≥ p.2)
    | none => false) == a.limits.length

/-- Tool dispatch within one loop iteration of Run: the Go code guards
on ToolCalls being nil; on success the results are attached to the
message.  A non-nil empty slice takes the other branch in Go but yields
the same message and usage, so the guard is modelled on emptiness. -/
def dispatchTools {T : Type} (a : Agent T) (m : LLMMessage) (usage : Usage) :
    Usage × Except GoError LLMMessage :=
  if m.toolCalls.isEmpty then (usage, .ok m)
  else
    match callTools a m usage with
    | (u', .ok rs) => (u', .ok { m with toolResults := rs })
    | (u', .error e) => (u', .error e)

/-- The for loop of Run from agent.go, with fuel for the unbounded
iteration and a counter n of model-client calls made so far.  The limit
check that the spec describes (agent.go lines 141 to 148) is commented
out in the source, so the loop proceeds straight to the model call; the
dead isLimitReached function is embedded above for specification
purposes only.  Outcomes: none when fuel runs out, otherwise the total
number of model calls together with the result or the classified
error.  A tool-dispatch error is re-wrapped with the tool-error
sentinel and the inner error flattened to text, exactly as
fmt.Errorf does in Run. -/
def runLoop {T : Type} (a : Agent T) :
    Nat → AgentState → Usage → Nat → Option (Nat × Except GoError (AgentResult T))
  | 0, _, _, _ => none
  | Nat.succ fuel, state, usage, n =>
    match a.llm state.Messages with
    | .error e => some (n + 1, .error (wrap .llmCall e))
    | .ok m =>
      match dispatchTools a m usage with
      | (_, .error e) => some (n + 1, .error (wrap .toolError e.msg))
      | (u', .ok m') =>
        let state' := state.AddMessage m'
        if m'.End then some (n + 1, createResult a state')
        else
          match createSystemPrompt a u' with
          | .error e =>
            some (n + 1, .error ⟨.unwrapped, "failed to update system prompt: " ++ e.msg⟩)
          | .ok sp => runLoop a fuel (setSystemContent state' sp) u' (n + 1)

/-- Run from agent.go: build the initial state (zero model calls on
failure there), then enter the loop with fresh empty usage counters. -/
def Run {T : Type} (a : Agent T) (input : String) (fuel : Nat) :
    Option (Nat × Except GoError (AgentResult T)) :=
  match createInitState a input with
  | .error e => some (0, .error e)
  | .ok st => runLoop a fuel st [] 0

/-- Totality of the byte-lexicographic comparison. -/
theorem leChars_total : ∀ (as bs : List Char), leChars as bs = true ∨ leChars bs as = true := by
  intro as
  induction as with
  | nil => intro bs; left; rfl
  | cons a as ih =>
    intro bs
    cases bs with
    | nil => right; rfl
    | cons b bs =>
      simp only [leChars]
      rcases Nat.lt_trichotomy a.toNat b.toNat with h | h | h
      · left; simp [h]
      · have h1 : ¬ a.toNat < b.toNat := by omega
        have h2 : ¬ b.toNat < a.toNat := by omega
        simpa [h1, h2] using ih bs
      · right; simp [h, show ¬ a.toNat < b.toNat by omega]

/-- Transitivity of the byte-lexicographic comparison. -/
theorem leChars_trans : ∀ {as bs cs : List Char},
    leChars as bs = true → leChars bs cs = true → leChars as cs = true := by
  intro as
  induction as with
  | nil => intro bs cs _ _; rfl
  | cons a as ih =>
    intro bs cs h1 h2
    cases bs with
    | nil => simp [leChars] at h1
    | cons b bs =>
      cases cs with
      | nil => simp [leChars] at h2
      | cons c cs =>
        simp only [leChars] at h1 h2 ⊢
        rcases Nat.lt_trichotomy a.toNat b.toNat with hab | hab | hab
        · rcases Nat.lt_trichotomy b.toNat c.toNat with hbc | hbc | hbc
          · rw [if_pos (show a.toNat < c.toNat by omega)]
          · rw [if_pos (show a.toNat < c.toNat by omega)]
          · rw [if_neg (show ¬ b.toNat < c.toNat by omega),
              if_pos (show c.toNat < b.toNat by omega)] at h2
            simp at h2
        · rw [if_neg (show ¬ a.toNat < b.toNat by omega),
            if_neg (show ¬ b.toNat < a.toNat by omega)] at h1
          rcases Nat.lt_trichotomy b.toNat c.toNat with hbc | hbc | hbc
          · rw [if_pos (show a.toNat < c.toNat by omega)]
          · rw [if_neg (show ¬ b.toNat < c.toNat by omega),
              if_neg (show ¬ c.toNat < b.toNat by omega)] at h2
            rw [if_neg (show ¬ a.toNat < c.toNat by omega),
              if_neg (show ¬ c.toNat < a.toNat by omega)]
            exact ih h1 h2
          · rw [if_neg (show ¬ b.toNat < c.toNat by omega),
              if_pos (show c.toNat < b.toNat by omega)] at h2
            simp at h2
        · rw [if_neg (show ¬ a.toNat < b.toNat by omega),
            if_pos (show b.toNat < a.toNat by omega)] at h1
          simp at h1

/-- Antisymmetry of the byte-lexicographic comparison. -/
theorem leChars_antisymm : ∀ {as bs : List Char},
    leChars as bs = true → leChars bs as = true → as = bs := by
  intro as
  induction as with
  | nil =>
    intro bs h1 h2
    cases bs with
    | nil => rfl
    | cons b bs => simp [leChars] at h2
  | cons a as ih =>
    intro bs h1 h2
    cases bs with
    | nil => simp [leChars] at h1
    | cons b bs =>
      simp only [leChars] at h1 h2
      by_cases hab : a.toNat < b.toNat
      · simp [hab, show ¬ b.toNat < a.toNat by omega] at h2
      · by_cases hba : b.toNat < a.toNat
        · simp [hab, hba] at h1
        · have he : a.toNat = b.toNat := by omega
          have ha : a = b := Char.ext (UInt32.toNat.inj he)
          simp only [hab, hba, if_neg, if_false] at h1 h2
          rw [ha, ih (by simpa using h1) (by simpa using h2)]

instance : IsTotal String strLeR := ⟨fun a b => leChars_total a.data b.data⟩

instance : IsTrans String strLeR := ⟨fun _ _ _ h1 h2 => leChars_trans h1 h2⟩

instance : IsAntisymm String strLeR :=
  ⟨fun a b h1 h2 => by
    cases a with
    | mk d1 =>
      cases b with
      | mk d2 => exact congrArg String.mk (leChars_antisymm h1 h2)⟩

/-- Lookup succeeds exactly on the keys of the association list. -/
theorem lookupA_isSome_iff_mem {α : Type} (l : List (String × α)) (k : String) :
    (lookupA l k).isSome = true ↔ k ∈ l.map Prod.fst := by
  induction l with
  | nil => simp [lookupA]
  | cons p rest ih =>
    obtain ⟨k', v⟩ := p
    by_cases h : k' = k
    · subst h; simp [lookupA]
    · simp only [lookupA, if_neg h, List.map_cons, List.mem_cons]
      rw [ih]
      constructor
      · exact fun hm => Or.inr hm
      · intro hm
        rcases hm with h' | hm
        · exact absurd h'.symm h
        · exact hm

/-- Membership in the serialised key list is key presence. -/
theorem mem_jsonKeys {α : Type} (l : List (String × α)) (k : String) :
    k ∈ jsonKeys l ↔ (lookupA l k).isSome = true := by
  unfold jsonKeys
  rw [(List.perm_insertionSort strLeR _).mem_iff, List.mem_dedup,
    ← lookupA_isSome_iff_mem]

/-- The serialised key list has no duplicates. -/
theorem nodup_jsonKeys {α : Type} (l : List (String × α)) : (jsonKeys l).Nodup :=
  ((List.perm_insertionSort strLeR _).nodup_iff).mpr (List.nodup_dedup _)

/-- The serialised key list is sorted. -/
theorem sorted_jsonKeys {α : Type} (l : List (String × α)) :
    List.Sorted strLeR (jsonKeys l) :=
  List.sorted_insertionSort strLeR _

/-- Association lists with the same key presence serialise their key
sets identically. -/
theorem jsonKeys_eq_of_lookupA_eq {α β : Type}
    (l1 : List (String × α)) (l2 : List (String × β))
    (h : ∀ k, (lookupA l1 k).isSome = (lookupA l2 k).isSome) :
    jsonKeys l1 = jsonKeys l2 := by
  refine List.eq_of_perm_of_sorted ?_ (sorted_jsonKeys l1) (sorted_jsonKeys l2)
  refine (List.perm_ext_iff_of_nodup (nodup_jsonKeys l1) (nodup_jsonKeys l2)).mpr ?_
  intro k
  rw [mem_jsonKeys, mem_jsonKeys, h k]

/-- Association lists that agree as finite maps have byte-identical
serialisations: the representation (entry order, history) is
irrelevant, as for a Go map. -/
theorem marshalMap_eq_of_lookupA_eq {α : Type} (f : Option α → String)
    (l1 l2 : List (String × α)) (h : ∀ k, lookupA l1 k = lookupA l2 k) :
    marshalMap f l1 = marshalMap f l2 := by
  unfold marshalMap
  rw [jsonKeys_eq_of_lookupA_eq l1 l2 (fun k => by rw [h k])]
  have : ∀ k, jsonField l1 f k = jsonField l2 f k := by
    intro k; unfold jsonField; rw [h k]
  rw [List.map_congr_left (fun k _ => this k)]


/-- Incrementing a counter raises exactly that key by one. -/
theorem getUsage_incrUsage_self (u : Usage) (k : String) :
    getUsage (incrUsage u k) k = getUsage u k + 1 := by
  induction u with
  | nil => simp [incrUsage, getUsage, lookupA]
  | cons p rest ih =>
    obtain ⟨k', n⟩ := p
    by_cases h : k' = k
    · subst h; simp [incrUsage, getUsage, lookupA]
    · simp only [incrUsage, if_neg h, getUsage, lookupA]
      exact ih

/-- Incrementing a counter leaves every other key unchanged. -/
theorem getUsage_incrUsage_other (u : Usage) {k k' : String} (h : k' ≠ k) :
    getUsage (incrUsage u k) k' = getUsage u k' := by
  have hkk : ¬ (k = k') := fun hh => h hh.symm
  induction u with
  | nil => simp [incrUsage, getUsage, lookupA, hkk]
  | cons p rest ih =>
    obtain ⟨k0, n⟩ := p
    by_cases h0 : k0 = k
    · subst h0
      simp [incrUsage, getUsage, lookupA, hkk]
    · by_cases h1 : k0 = k'
      · subst h1; simp [incrUsage, if_neg h0, getUsage, lookupA]
      · simp only [incrUsage, if_neg h0, getUsage, lookupA, if_neg h1]
        exact ih

/-- Key presence after an increment: the old keys plus the incremented
one. -/
theorem lookupA_incrUsage_isSome (u : Usage) (k k' : String) :
    (lookupA (incrUsage u k) k').isSome = true ↔
      ((lookupA u k').isSome = true ∨ k' = k) := by
  induction u with
  | nil =>
    by_cases h : k = k'
    · subst h; simp [incrUsage, lookupA]
    · have h' : ¬ (k' = k) := fun hh => h hh.symm
      simp [incrUsage, lookupA, if_neg h, h']
  | cons p rest ih =>
    obtain ⟨k0, n⟩ := p
    by_cases h0 : k0 = k
    · subst h0
      by_cases h1 : k0 = k'
      · subst h1; simp [incrUsage, lookupA]
      · have h1' : ¬ (k' = k0) := fun hh => h1 hh.symm
        simp [incrUsage, lookupA, if_neg h1, h1']
    · by_cases h1 : k0 = k'
      · subst h1; simp [incrUsage, if_neg h0, lookupA]
      · simp only [incrUsage, if_neg h0, lookupA, if_neg h1]
        exact ih

/-- Usage is not decreased by a single increment step on any key. -/
theorem getUsage_le_incrUsage (u : Usage) (k k' : String) :
    getUsage u k' ≤ getUsage (incrUsage u k) k' := by
  by_cases h : k' = k
  · subst h; rw [getUsage_incrUsage_self]; omega
  · rw [getUsage_incrUsage_other _ h]

/-- The tool-call loop never decreases a usage counter, whatever its
outcome. -/
theorem callToolsGo_usage_mono (tools : List (String × LLMTool)) :
    ∀ (calls : List LLMToolCall) (usage : Usage) (acc : List LLMToolResult) (k : String),
      getUsage usage k ≤ getUsage (callToolsGo tools calls usage acc).1 k := by
  intro calls
  induction calls with
  | nil => intro usage acc k; simp [callToolsGo]
  | cons c rest ih =>
    intro usage acc k
    simp only [callToolsGo]
    split
    · simp
    · split
      · simp
      · exact le_trans (getUsage_le_incrUsage usage c.toolName k) (ih _ _ k)

/-- The tool-call loop adds only registered tool names to the usage
map. -/
theorem callToolsGo_keys (tools : List (String × LLMTool)) :
    ∀ (calls : List LLMToolCall) (usage : Usage) (acc : List LLMToolResult),
      (∀ k, (lookupA usage k).isSome = true → (lookupA tools k).isSome = true) →
      ∀ k, (lookupA (callToolsGo tools calls usage acc).1 k).isSome = true →
        (lookupA tools k).isSome = true := by
  intro calls
  induction calls with
  | nil => intro usage acc hinv k hk; exact hinv k (by simpa [callToolsGo] using hk)
  | cons c rest ih =>
    intro usage acc hinv k hk
    simp only [callToolsGo] at hk
    split at hk
    · exact hinv k hk
    · rename_i tool hl
      split at hk
      · exact hinv k hk
      · rename_i res hc
        refine ih (incrUsage usage c.toolName) (res :: acc) ?_ k hk
        intro k' hk'
        rcases (lookupA_incrUsage_isSome usage c.toolName k').mp hk' with h | h
        · exact hinv k' h
        · subst h; simp [hl]

/-- On a fully successful batch the final usage equals the initial usage
plus, for each key, the number of calls bearing that tool name. -/
theorem callToolsGo_ok_counts (tools : List (String × LLMTool)) :
    ∀ (calls : List LLMToolCall) (usage : Usage) (acc rs : List LLMToolResult),
      (callToolsGo tools calls usage acc).2 = .ok rs →
      ∀ k, getUsage (callToolsGo tools calls usage acc).1 k =
        getUsage usage k + calls.countP (fun c => decide (c.toolName = k)) := by
  intro calls
  induction calls with
  | nil => intro usage acc rs _ k; simp [callToolsGo]
  | cons c rest ih =>
    intro usage acc rs h k
    simp only [callToolsGo] at h ⊢
    split at h
    · simp at h
    · rename_i tool hl
      split at h
      · simp at h
      · rename_i res hc
        rw [ih (incrUsage usage c.toolName) (res :: acc) rs h k, List.countP_cons]
        by_cases hk : c.toolName = k
        · subst hk; rw [getUsage_incrUsage_self]; simp; omega
        · rw [getUsage_incrUsage_other _ (fun hh => hk hh.symm)]
          simp [hk]

/-- A batch consisting of a successful prefix followed by an unknown
tool name aborts with the tool-not-found sentinel, keeping the prefix
increments in the (shared, mutated in place) usage map and discarding
the collected results. -/
theorem callToolsGo_unknown (tools : List (String × LLMTool)) :
    ∀ (pre : List LLMToolCall) (c : LLMToolCall) (rest : List LLMToolCall)
      (usage : Usage) (acc : List LLMToolResult),
      (∀ c' ∈ pre, ∃ t, lookupA tools c'.toolName = some t ∧
        ∃ r, t.call c'.id c'.args = .ok r) →
      lookupA tools c.toolName = none →
      callToolsGo tools (pre ++ c :: rest) usage acc =
        (pre.foldl (fun u c' => incrUsage u c'.toolName) usage,
         .error (wrap .toolNotFound c.toolName)) := by
  intro pre
  induction pre with
  | nil =>
    intro c rest usage acc _ hc
    simp [callToolsGo, hc]
  | cons p pre ih =>
    intro c rest usage acc hpre hc
    obtain ⟨t, ht, r, hr⟩ := hpre p (List.mem_cons_self _ _)
    simp only [List.cons_append, callToolsGo, ht, hr, List.foldl_cons]
    exact ih c rest _ _ (fun c' hm => hpre c' (List.mem_cons_of_mem _ hm)) hc

/-- Every error createResult produces is either of the
invalid-result-schema kind (validator error or invalid result) or bare
(the decode error, wrapped in no sentinel). -/
theorem createResult_error_kind {T : Type} (a : Agent T) (st : AgentState) (e : GoError)
    (h : createResult a st = .error e) :
    e.kind = .invalidResultSchema ∨ e.kind = .unwrapped := by
  simp only [createResult] at h
  split at h
  · injection h with h2; subst h2; left; rfl
  · split at h
    · injection h with h2; subst h2; left; rfl
    · split at h
      · injection h with h2; subst h2; right; rfl
      · simp at h

/-- A successful extraction returns the full transcript unchanged. -/
theorem createResult_ok_messages {T : Type} (a : Agent T) (st : AgentState)
    (r : AgentResult T) (h : createResult a st = .ok r) :
    r.messages = st.Messages := by
  simp only [createResult] at h
  split at h
  · simp at h
  · split at h
    · simp at h
    · split at h
      · simp at h
      · injection h with h2; subst h2; rfl

/-- Initial-state construction fails only with the (unwrapped)
prompt-creation failure or the empty-system-prompt sentinel. -/
theorem createInitState_error_kind {T : Type} (a : Agent T) (input : String)
    (e : GoError) (h : createInitState a input = .error e) :
    e.kind = .unwrapped ∨ e.kind = .emptySystemPrompt := by
  simp only [createInitState] at h
  split at h
  · injection h with h2; subst h2; left; rfl
  · split at h
    · injection h with h2; subst h2; right; rfl
    · simp at h

/-- The successful initial state is exactly the system message rendered
over zero usage followed by the user input message. -/
theorem createInitState_ok_shape {T : Type} (a : Agent T) (input : String)
    (st : AgentState) (h : createInitState a input = .ok st) :
    ∃ sp, createSystemPrompt a [] = .ok sp ∧ sp ≠ "" ∧
      st.Messages = [NewLLMMessage .system sp, NewLLMMessage .user input] := by
  simp only [createInitState] at h
  split at h
  · simp at h
  · rename_i sp hsp
    split at h
    · simp at h
    · rename_i hne
      injection h with h2
      subst h2
      exact ⟨sp, hsp, hne, rfl⟩

/-- The last element of a snoc list under getLastD, for any default. -/
theorem getLastD_append_one {α : Type} : ∀ (l : List α) (x d : α),
    (l ++ [x]).getLastD d = x := by
  intro l
  induction l with
  | nil => intro x d; rfl
  | cons a l ih =>
    intro x d
    rw [List.cons_append, List.getLastD_cons]
    exact ih x a

/-- The last element of a snoc list under getLastD. -/
theorem getLastD_append_single {α : Type} [Inhabited α] (l : List α) (x : α) :
    (l ++ [x]).getLastD default = x :=
  getLastD_append_one l x default

/-- Dispatch preserves the terminal flag of the model message. -/
theorem dispatchTools_ok_End {T : Type} (a : Agent T) (m : LLMMessage) (usage : Usage)
    (u' : Usage) (m' : LLMMessage) (h : dispatchTools a m usage = (u', .ok m')) :
    m'.End = m.End := by
  simp only [dispatchTools] at h
  split at h
  · injection h with h1 h2
    injection h2 with h3
    subst h3
    rfl
  · split at h
    · injection h with h1 h2
      injection h2 with h3
      subst h3
      rfl
    · simp at h

/-- No outcome of the loop carries the limit-reached sentinel: the
limit check is absent from the compiled loop. -/
theorem runLoop_error_kind {T : Type} (a : Agent T) :
    ∀ (fuel : Nat) (state : AgentState) (usage : Usage) (n k : Nat) (e : GoError),
      runLoop a fuel state usage n = some (k, .error e) → e.kind ≠ .limitReached := by
  intro fuel
  induction fuel with
  | zero => intro state usage n k e h; simp [runLoop] at h
  | succ fuel ih =>
    intro state usage n k e h
    simp only [runLoop] at h
    split at h
    · simp only [Option.some.injEq, Prod.mk.injEq, Except.error.injEq] at h
      obtain ⟨-, h2⟩ := h
      subst h2
      simp [wrap]
    · split at h
      · simp only [Option.some.injEq, Prod.mk.injEq, Except.error.injEq] at h
        obtain ⟨-, h2⟩ := h
        subst h2
        simp [wrap]
      · split at h
        · simp only [Option.some.injEq, Prod.mk.injEq] at h
          obtain ⟨-, h2⟩ := h
          rcases createResult_error_kind a _ e h2 with hk | hk <;> rw [hk] <;> decide
        · split at h
          · simp only [Option.some.injEq, Prod.mk.injEq, Except.error.injEq] at h
            obtain ⟨-, h2⟩ := h
            subst h2
            simp
          · exact ih _ _ _ _ _ h

/-- A successful loop outcome always ends on a message whose terminal
flag is set: the transcript is nonempty and its last message has End. -/
theorem runLoop_ok_lastEnd {T : Type} (a : Agent T) :
    ∀ (fuel : Nat) (state : AgentState) (usage : Usage) (n k : Nat)
      (res : AgentResult T),
      runLoop a fuel state usage n = some (k, .ok res) →
      res.messages ≠ [] ∧ (res.messages.getLastD default).End = true := by
  intro fuel
  induction fuel with
  | zero => intro state usage n k res h; simp [runLoop] at h
  | succ fuel ih =>
    intro state usage n k res h
    simp only [runLoop] at h
    split at h
    · simp at h
    · split at h
      · simp at h
      · rename_i m hm u' m' hd
        split at h
        · rename_i hEnd
          simp only [Option.some.injEq, Prod.mk.injEq] at h
          obtain ⟨-, h2⟩ := h
          have hmsg := createResult_ok_messages a _ res h2
          rw [hmsg]
          simp only [AgentState.AddMessage]
          refine ⟨by simp, ?_⟩
          rw [getLastD_append_single]
          exact hEnd
        · split at h
          · simp at h
          · exact ih _ _ _ _ _ h

/-- Frame property of the loop: starting from a state whose first
message has some type, any successful outcome keeps a first message of
that same type and extends the tail only by appending; the original
tail survives as a prefix, unmodified. -/
theorem runLoop_frame {T : Type} (a : Agent T) :
    ∀ (fuel : Nat) (state : AgentState) (usage : Usage) (n k : Nat)
      (res : AgentResult T) (h0 : LLMMessage) (t0 : List LLMMessage),
      state.Messages = h0 :: t0 →
      runLoop a fuel state usage n = some (k, .ok res) →
      ∃ h1 t1, res.messages = h1 :: t1 ∧ h1.type = h0.type ∧ t0 <+: t1 := by
  intro fuel
  induction fuel with
  | zero => intro state usage n k res h0 t0 hst h; simp [runLoop] at h
  | succ fuel ih =>
    intro state usage n k res h0 t0 hst h
    simp only [runLoop] at h
    split at h
    · simp at h
    · split at h
      · simp at h
      · rename_i m hm u' m' hd
        split at h
        · simp only [Option.some.injEq, Prod.mk.injEq] at h
          obtain ⟨-, h2⟩ := h
          have hmsg := createResult_ok_messages a _ res h2
          refine ⟨h0, t0 ++ [m'], ?_, rfl, List.prefix_append t0 [m']⟩
          rw [hmsg]
          simp [AgentState.AddMessage, hst]
        · split at h
          · simp at h
          · rename_i sp hsp
            have hnext :
                (setSystemContent (state.AddMessage m') sp).Messages =
                  { h0 with content := sp } :: (t0 ++ [m']) := by
              simp [AgentState.AddMessage, setSystemContent, hst]
            obtain ⟨h1, t1, hres, htype, hpre⟩ :=
              ih (setSystemContent (state.AddMessage m') sp) u' (n + 1) k res
                ({ h0 with content := sp }) (t0 ++ [m']) hnext h
            exact ⟨h1, t1, hres, htype, (List.prefix_append t0 [m']).trans hpre⟩

/-- The usage-counter key invariant: every key present in the usage map
is a key of the tool registry. -/
def usageKeysOK {T : Type} (a : Agent T) (u : Usage) : Prop :=
  ∀ k, (lookupA u k).isSome = true → (lookupA a.tools k).isSome = true

/-- A one-tool registry entry used by the concrete runs below. -/
def toolT : LLMTool := ⟨"t", "d", "\x7b\x7d", fun id _ => .ok ⟨id, "r"⟩⟩

/-- An assistant message requesting one call of tool t, terminal flag
clear. -/
def msgCallT : LLMMessage := ⟨.assistant, "", [⟨"1", "t", []⟩], [], false⟩

/-- A terminal assistant message with content 8. -/
def msgEnd8 : LLMMessage := ⟨.assistant, "8", [], [], true⟩

/-- A concrete agent with tool t limited to one call, a constant
prompt template, an always-accepting validator and decoder, and a model
client that first requests the tool and then finishes. -/
def agentC1 : Agent Nat :=
  { name := "c1", tools := [("t", toolT)], limits := [("t", 1)],
    behavior := "B", systemPrompt := ⟨"P"⟩, outputSchemaJson := "S",
    validate := fun _ => .ok ⟨true, ""⟩,
    unmarshal := fun _ => .ok 8,
    llm := fun msgs => if msgs.length == 2 then .ok msgCallT else .ok msgEnd8 }

/-- C1 counterexample: with tool t limited to one call, after the first
model turn the batch leaves usage at the limit and isLimitReached holds,
yet the run performs a second model call (total two) and returns a
plain success, not the limit-reached condition: the claimed pre-call
limit check does not exist in the compiled loop (agent.go lines 141 to
148 are commented out). -/
theorem C1_cex_second_model_call :
    isLimitReached agentC1 (callTools agentC1 msgCallT []).1 = true ∧
    Run agentC1 "in" 5 =
      some (2, .ok ⟨8,
        [NewLLMMessage .system "P", NewLLMMessage .user "in",
         { msgCallT with toolResults := [⟨"1", "r"⟩] }, msgEnd8]⟩) :=
  ⟨rfl, rfl⟩

/-- C1 (amended): the limit check is disabled in the source (commented
out), so the loop proceeds to the model call regardless of usage: no
outcome of the loop ever carries the limit-reached kind, and even when
every limited tool has reached its limit the model client is invoked
again (witnessed here through the model-call failure surfacing). -/
theorem C1_limit_check_disabled {T : Type} (a : Agent T) :
    (∀ (fuel : Nat) (state : AgentState) (usage : Usage) (n k : Nat) (e : GoError),
      runLoop a fuel state usage n = some (k, .error e) → e.kind ≠ .limitReached) ∧
    (∀ (fuel : Nat) (state : AgentState) (usage : Usage) (n : Nat) (e : String),
      isLimitReached a usage = true →
      a.llm state.Messages = .error e →
      runLoop a (fuel + 1) state usage n = some (n + 1, .error (wrap .llmCall e))) := by
  constructor
  · exact runLoop_error_kind a
  · intro fuel state usage n e _ hl
    simp [runLoop, hl]

/-- A model client that always fails, over the C1 configuration. -/
def agentC1e : Agent Nat :=
  { agentC1 with llm := fun _ => .error "down" }

/-- Witness for the amended C1 at a concrete exhausted-usage state. -/
theorem C1_witness :
    runLoop agentC1e (0 + 1) ⟨[NewLLMMessage .system "P"]⟩ [("t", 1)] 0 =
      some (0 + 1, .error (wrap .llmCall "down")) :=
  (C1_limit_check_disabled agentC1e).2 0 ⟨[NewLLMMessage .system "P"]⟩ [("t", 1)] 0 "down"
    rfl rfl

/-- The successful leading call of the mixed batch. -/
def callT1 : LLMToolCall := ⟨"1", "t", []⟩

/-- The unresolvable trailing call of the mixed batch. -/
def callNope : LLMToolCall := ⟨"2", "nope", []⟩

/-- A batch requesting tool t and then the unregistered name nope. -/
def msgC2 : LLMMessage := ⟨.assistant, "", [callT1, callNope], [], false⟩

/-- The C1 configuration with a model client that emits the mixed
batch. -/
def agentC2 : Agent Nat :=
  { agentC1 with llm := fun _ => .ok msgC2 }

/-- C2 counterexample: a batch with a successful call of t before the
unknown name nope.  The batch does increment the usage counter of t to
one (refuting the no-increment part), and the run aborts with an error
whose kind is the tool-error sentinel, not the tool-not-found sentinel
(Run re-wraps the callTools error with the percent-s verb, flattening
the tool-not-found sentinel into text). -/
theorem C2_cex_unknown_tool :
    (callTools agentC2 msgC2 []).1 = [("t", 1)] ∧
    (callTools agentC2 msgC2 []).2 = .error (wrap .toolNotFound "nope") ∧
    Run agentC2 "in" 5 =
      some (1, .error (wrap .toolError (wrap .toolNotFound "nope").msg)) ∧
    (wrap .toolError (wrap .toolNotFound "nope").msg).kind ≠ .toolNotFound :=
  ⟨rfl, rfl, rfl, by decide⟩

/-- C2 (amended): when an assistant message carries a successful prefix
of calls followed by a call whose tool name is not registered, callTools
returns the tool-not-found error and the usage map advanced by exactly
the successful prefix, and the run aborts on that iteration with an
error of the tool-error kind whose message carries the tool-not-found
text; the collected results of the earlier calls are discarded (the
error return carries none). -/
theorem C2_unknown_tool_amended {T : Type} (a : Agent T)
    (m : LLMMessage) (usage : Usage) (pre : List LLMToolCall) (c : LLMToolCall)
    (rest : List LLMToolCall) (fuel : Nat) (state : AgentState) (n : Nat)
    (hcalls : m.toolCalls = pre ++ c :: rest)
    (hpre : ∀ c' ∈ pre, ∃ t, lookupA a.tools c'.toolName = some t ∧
      ∃ r, t.call c'.id c'.args = .ok r)
    (hc : lookupA a.tools c.toolName = none)
    (hm : a.llm state.Messages = .ok m) :
    callTools a m usage =
      (pre.foldl (fun u c' => incrUsage u c'.toolName) usage,
        .error (wrap .toolNotFound c.toolName)) ∧
    runLoop a (fuel + 1) state usage n =
      some (n + 1, .error (wrap .toolError (wrap .toolNotFound c.toolName).msg)) := by
  have hct : callTools a m usage =
      (pre.foldl (fun u c' => incrUsage u c'.toolName) usage,
        .error (wrap .toolNotFound c.toolName)) := by
    unfold callTools
    rw [hcalls]
    exact callToolsGo_unknown a.tools pre c rest usage [] hpre hc
  refine ⟨hct, ?_⟩
  have hne : m.toolCalls.isEmpty = false := by
    rw [hcalls]; cases pre <;> rfl
  have hd : dispatchTools a m usage =
      (pre.foldl (fun u c' => incrUsage u c'.toolName) usage,
        .error (wrap .toolNotFound c.toolName)) := by
    simp [dispatchTools, hne, hct]
  simp [runLoop, hm, hd]

/-- Witness for the amended C2 at the concrete mixed batch. -/
theorem C2_witness :
    callTools agentC2 msgC2 [] =
      ([callT1].foldl (fun u c' => incrUsage u c'.toolName) [],
        .error (wrap .toolNotFound callNope.toolName)) ∧
    runLoop agentC2 (4 + 1) ⟨[NewLLMMessage .system "P", NewLLMMessage .user "in"]⟩ [] 0 =
      some (0 + 1, .error (wrap .toolError (wrap .toolNotFound callNope.toolName).msg)) :=
  C2_unknown_tool_amended agentC2 msgC2 [] [callT1] callNope [] 4
    ⟨[NewLLMMessage .system "P", NewLLMMessage .user "in"]⟩ 0 rfl
    (fun c' hm => by
      rw [List.mem_singleton] at hm
      subst hm
      exact ⟨toolT, rfl, ⟨"1", "r"⟩, rfl⟩)
    rfl rfl

/-- An agent whose validator accepts everything and whose decoder always
fails with the text boom: validation passes, decoding fails. -/
def agentC3 : Agent Nat :=
  { agentC1 with
    validate := fun _ => .ok ⟨true, ""⟩,
    unmarshal := fun _ => .error "boom" }

/-- C3 counterexample: on content that validates but fails to decode,
createResult returns the bare decode error (no sentinel wrapped), whose
kind is not the invalid-result-schema sentinel: agent.go line 263
returns err unwrapped, unlike the two validation paths. -/
theorem C3_cex_decode_bare :
    createResult agentC3 ⟨[NewLLMMessage .assistant "x"]⟩ =
      .error ⟨.unwrapped, "boom"⟩ ∧
    ErrKind.unwrapped ≠ ErrKind.invalidResultSchema :=
  ⟨rfl, by decide⟩

/-- C3 (amended): a validator hard error and an invalid validation
result are both reported as the invalid-result-schema kind wrapping the
underlying text, while a decode failure after successful validation is
returned as the bare decode error, wrapped in no sentinel. -/
theorem C3_result_error_kinds {T : Type} (a : Agent T) (st : AgentState) :
    (∀ e, a.validate (st.Messages.getLastD default).content = .error e →
      createResult a st = .error (wrap .invalidResultSchema e)) ∧
    (∀ vr, a.validate (st.Messages.getLastD default).content = .ok vr →
      vr.valid = false →
      createResult a st = .error (wrap .invalidResultSchema vr.errorsText)) ∧
    (∀ vr e, a.validate (st.Messages.getLastD default).content = .ok vr →
      vr.valid = true →
      a.unmarshal (st.Messages.getLastD default).content = .error e →
      createResult a st = .error ⟨.unwrapped, e⟩) := by
  refine ⟨?_, ?_, ?_⟩
  · intro e he
    simp only [createResult]
    rw [he]
  · intro vr hv hval
    simp only [createResult]
    rw [hv]
    simp [hval]
  · intro vr e hv hval hu
    simp only [createResult]
    rw [hv]
    simp only [hval]
    rw [hu]
    rfl

/-- Witness for C3 on the decode-failure path at concrete content. -/
theorem C3_witness :
    createResult agentC3 ⟨[NewLLMMessage .assistant "undec"]⟩ =
      .error ⟨.unwrapped, "boom"⟩ :=
  (C3_result_error_kinds agentC3 ⟨[NewLLMMessage .assistant "undec"]⟩).2.2
    ⟨true, ""⟩ "boom" rfl rfl rfl

/-- C4: with no tool limits configured, a run that returns an outcome
never carries the limit-reached condition, and a successful return
happens only when the model message carried the terminal flag (withholding
fuel models nontermination, which is the remaining possibility). -/
theorem C4_no_limit_termination {T : Type} (a : Agent T) (input : String)
    (fuel k : Nat) (out : Except GoError (AgentResult T))
    (hlim : a.limits = [])
    (h : Run a input fuel = some (k, out)) :
    (∀ e, out = .error e → e.kind ≠ .limitReached) ∧
    (∀ res, out = .ok res →
      res.messages ≠ [] ∧ (res.messages.getLastD default).End = true) := by
  simp only [Run] at h
  split at h
  · rename_i e0 hinit
    simp only [Option.some.injEq, Prod.mk.injEq] at h
    obtain ⟨-, h2⟩ := h
    constructor
    · intro e he
      rw [he] at h2
      injection h2 with h3
      subst h3
      rcases createInitState_error_kind a input e0 hinit with hk | hk <;>
        rw [hk] <;> decide
    · intro res hres
      rw [hres] at h2
      simp at h2
  · rename_i st hinit
    constructor
    · intro e he
      rw [he] at h
      exact runLoop_error_kind a fuel st [] 0 k e h
    · intro res hres
      rw [hres] at h
      exact runLoop_ok_lastEnd a fuel st [] 0 k res h

/-- A limitless agent whose model client finishes immediately. -/
def agentC4 : Agent Nat :=
  { name := "c4", tools := [], limits := [], behavior := "B",
    systemPrompt := ⟨"P"⟩, outputSchemaJson := "S",
    validate := fun _ => .ok ⟨true, ""⟩,
    unmarshal := fun _ => .ok 7,
    llm := fun _ => .ok ⟨.assistant, "7", [], [], true⟩ }

/-- The outcome of the concrete limitless run. -/
def resC4 : AgentResult Nat :=
  ⟨7, [NewLLMMessage .system "P", NewLLMMessage .user "in",
       ⟨.assistant, "7", [], [], true⟩]⟩

/-- Witness for C4 on the concrete limitless run. -/
theorem C4_witness :
    (∀ e, (Except.ok resC4 : Except GoError (AgentResult Nat)) = .error e →
      e.kind ≠ .limitReached) ∧
    (∀ res, (Except.ok resC4 : Except GoError (AgentResult Nat)) = .ok res →
      res.messages ≠ [] ∧ (res.messages.getLastD default).End = true) :=
  C4_no_limit_termination agentC4 "in" 3 1 (.ok resC4) rfl rfl

/-- C5: whenever the model message of an iteration has the terminal flag
set and tool dispatch succeeds, the loop returns on that very iteration,
with exactly one further model call made, going straight to result
extraction over the state extended by the dispatched message; the
attached tool calls are arbitrary. -/
theorem C5_terminal_ends_iteration {T : Type} (a : Agent T) (fuel : Nat)
    (state : AgentState) (usage u' : Usage) (n : Nat) (m m' : LLMMessage)
    (hm : a.llm state.Messages = .ok m)
    (hEnd : m.End = true)
    (hd : dispatchTools a m usage = (u', .ok m')) :
    runLoop a (fuel + 1) state usage n =
      some (n + 1, createResult a (state.AddMessage m')) := by
  have hE' : m'.End = true := by
    rw [dispatchTools_ok_End a m usage u' m' hd]
    exact hEnd
  simp only [runLoop, hm]
  simp only [hd]
  simp [hE']

/-- A terminal assistant message that still carries a tool call. -/
def msgEndCallC5 : LLMMessage := ⟨.assistant, "8", [callT1], [], true⟩

/-- The C1 configuration with a model client that finishes immediately
while also requesting tool t. -/
def agentC5 : Agent Nat :=
  { agentC1 with llm := fun _ => .ok msgEndCallC5 }

/-- The initial conversation state of the concrete runs. -/
def stateInit : AgentState :=
  ⟨[NewLLMMessage .system "P", NewLLMMessage .user "in"]⟩

/-- The terminal message after its tool call was dispatched. -/
def msgC5d : LLMMessage := { msgEndCallC5 with toolResults := [⟨"1", "r"⟩] }

/-- Witness for C5: a terminal message with an attached tool call ends
the loop on its own iteration. -/
theorem C5_witness :
    runLoop agentC5 (2 + 1) stateInit [] 0 =
      some (0 + 1, createResult agentC5 (stateInit.AddMessage msgC5d)) :=
  C5_terminal_ends_iteration agentC5 2 stateInit [] [("t", 1)] 0 msgEndCallC5 msgC5d
    rfl rfl rfl

/-- C6: the usage counters start empty at the start of a run (Run enters
the loop with the empty map); tool dispatch keeps the counter keys
inside the registry key set, never decrements any counter, and on a
fully successful batch increments each tool name by exactly the number
of its successful invocations in the batch (on an aborted batch only
the successful prefix is counted, see the amended C2). -/
theorem C6_usage_invariants {T : Type} (a : Agent T) :
    (∀ k, getUsage [] k = 0) ∧
    (∀ (m : LLMMessage) (usage : Usage),
      usageKeysOK a usage → usageKeysOK a (callTools a m usage).1) ∧
    (∀ (m : LLMMessage) (usage : Usage) (k : String),
      getUsage usage k ≤ getUsage (callTools a m usage).1 k) ∧
    (∀ (m : LLMMessage) (usage : Usage) (rs : List LLMToolResult),
      (callTools a m usage).2 = .ok rs →
      ∀ k, getUsage (callTools a m usage).1 k =
        getUsage usage k + m.toolCalls.countP (fun c => decide (c.toolName = k))) := by
  refine ⟨fun k => rfl, ?_, ?_, ?_⟩
  · intro m usage h k hk
    exact callToolsGo_keys a.tools m.toolCalls usage [] h k hk
  · intro m usage k
    exact callToolsGo_usage_mono a.tools m.toolCalls usage [] k
  · intro m usage rs h k
    exact callToolsGo_ok_counts a.tools m.toolCalls usage [] rs h k

/-- Witness for C6 at the concrete one-call batch over empty usage. -/
theorem C6_witness :
    usageKeysOK agentC1 (callTools agentC1 msgCallT []).1 ∧
    getUsage (callTools agentC1 msgCallT []).1 "t" =
      getUsage ([] : Usage) "t" +
        msgCallT.toolCalls.countP (fun c => decide (c.toolName = "t")) :=
  ⟨(C6_usage_invariants agentC1).2.1 msgCallT []
      (fun k hk => by simp [lookupA] at hk),
   (C6_usage_invariants agentC1).2.2.2 msgCallT [] [⟨"1", "r"⟩] rfl "t"⟩

/-- A template whose single variable action names no argument key. -/
def tmplC7 : String := "X\x7b\x7b.missing\x7d\x7dY"

/-- The parse of that template. -/
def piecesC7 : List Piece := [.lit ['X'], .var "missing", .lit ['Y']]

/-- The C1 configuration with the missing-variable template override. -/
def agentC7 : Agent Nat :=
  { agentC1 with systemPrompt := ⟨tmplC7⟩ }

/-- C7 counterexample: rendering the system prompt from a template
referencing a variable absent from the five-argument map does not fail;
it silently succeeds with the placeholder text in place of the
variable, as text/template does for maps under its default missingkey
option. -/
theorem C7_cex_missing_placeholder :
    createSystemPrompt agentC7 [] = .ok "X<no value>Y" := rfl

/-- C7 (amended): a malformed template fails at parse time with the
wrapped parse error and rendering propagates it, while a reference to a
variable missing from the argument map does not fail: parsing succeeds
and execution substitutes the placeholder text for that variable. -/
theorem C7_template_errors_amended (p : Prompt) (args : List (String × String)) :
    (∀ e, parseTemplate p.Template = .error e →
      p.Render args = .error ⟨.unwrapped, "failed to parse prompt template: " ++ e⟩) ∧
    (∀ ps, parseTemplate p.Template = .ok ps →
      p.Render args = .ok (execTemplate ps args)) ∧
    (∀ v, lookupA args v = none → execPiece args (Piece.var v) = "<no value>") := by
  refine ⟨?_, ?_, ?_⟩
  · intro e he
    simp only [Prompt.Render]
    rw [he]
  · intro ps hps
    simp only [Prompt.Render]
    rw [hps]
  · intro v hv
    simp only [execPiece]
    rw [hv]

/-- Witness for the amended C7 at the concrete template. -/
theorem C7_witness :
    Prompt.Render ⟨tmplC7⟩ [("a", "b")] = .ok (execTemplate piecesC7 [("a", "b")]) ∧
    execPiece [("a", "b")] (Piece.var "missing") = "<no value>" :=
  ⟨(C7_template_errors_amended ⟨tmplC7⟩ [("a", "b")]).2.1 piecesC7 rfl,
   (C7_template_errors_amended ⟨tmplC7⟩ [("a", "b")]).2.2 "missing" rfl⟩

/-- C8: the rendered system prompt is a pure function of the five
substitution inputs; in particular two usage maps with identical
content (whatever entry order or history produced them, as for a Go
map) render byte-identical prompts, since serialisation sorts the key
set. -/
theorem C8_render_deterministic {T : Type} (a : Agent T) (u1 u2 : Usage)
    (h : ∀ k, lookupA u1 k = lookupA u2 k) :
    createSystemPrompt a u1 = createSystemPrompt a u2 := by
  have hm : marshalNatMap u1 = marshalNatMap u2 :=
    marshalMap_eq_of_lookupA_eq _ u1 u2 h
  simp only [createSystemPrompt]
  rw [hm]

/-- Witness for C8 on two orderings of the same two-counter map. -/
theorem C8_witness :
    createSystemPrompt agentC1 [("a", 1), ("b", 2)] =
      createSystemPrompt agentC1 [("b", 2), ("a", 1)] :=
  C8_render_deterministic agentC1 [("a", 1), ("b", 2)] [("b", 2), ("a", 1)]
    (fun k => by
      by_cases h1 : "a" = k
      · subst h1; rfl
      · by_cases h2 : "b" = k
        · subst h2; rfl
        · simp [lookupA, h1, h2])

/-- C9: the initial state starts with a system-typed first message; the
prompt refresh rewrites only the content of message index zero, keeping
its other fields and the whole tail untouched; and across any
successful run the first message keeps its type while the original tail
survives as a prefix of the final tail (append-only). -/
theorem C9_state_frame {T : Type} (a : Agent T) :
    (∀ (input : String) (st : AgentState), createInitState a input = .ok st →
      st.Messages.head?.map (fun m => m.type) = some .system) ∧
    (∀ (st : AgentState) (sp : String) (h0 : LLMMessage) (t0 : List LLMMessage),
      st.Messages = h0 :: t0 →
      (setSystemContent st sp).Messages = { h0 with content := sp } :: t0) ∧
    (∀ (fuel : Nat) (state : AgentState) (usage : Usage) (n k : Nat)
      (res : AgentResult T) (h0 : LLMMessage) (t0 : List LLMMessage),
      state.Messages = h0 :: t0 →
      runLoop a fuel state usage n = some (k, .ok res) →
      ∃ h1 t1, res.messages = h1 :: t1 ∧ h1.type = h0.type ∧ t0 <+: t1) := by
  refine ⟨?_, ?_, ?_⟩
  · intro input st h
    obtain ⟨sp, -, -, hmsg⟩ := createInitState_ok_shape a input st h
    rw [hmsg]
    rfl
  · intro st sp h0 t0 hst
    simp [setSystemContent, hst]
  · exact runLoop_frame a

/-- Witness for C9 on the concrete limitless run. -/
theorem C9_witness :
    ∃ h1 t1, resC4.messages = h1 :: t1 ∧
      h1.type = (NewLLMMessage .system "P").type ∧
      [NewLLMMessage .user "in"] <+: t1 :=
  (C9_state_frame agentC4).2.2 3 stateInit [] 0 1 resC4
    (NewLLMMessage .system "P") [NewLLMMessage .user "in"] rfl rfl

/-- C10: when the configured template renders the empty string over
zero usage, Run fails with the empty-system-prompt sentinel before any
model call is made (zero calls counted) and before any conversation
state exists. -/
theorem C10_empty_prompt {T : Type} (a : Agent T) (input : String) (fuel : Nat)
    (h : createSystemPrompt a [] = .ok "") :
    Run a input fuel =
      some (0, .error ⟨.emptySystemPrompt, errText .emptySystemPrompt⟩) := by
  simp only [Run, createInitState]
  rw [h]
  rfl

/-- The C1 configuration with the empty template override. -/
def agentC10 : Agent Nat :=
  { agentC1 with systemPrompt := ⟨""⟩ }

/-- Witness for C10: the empty template renders empty and Run fails
immediately with zero model calls. -/
theorem C10_witness :
    Run agentC10 "in" 4 =
      some (0, .error ⟨.emptySystemPrompt, errText .emptySystemPrompt⟩) :=
  C10_empty_prompt agentC10 "in" 4 rfl
